import Mathlib

/-!
Verification development for the Fail2ban Banned IPs Monitor.

The repository's core is the ban-history reconciliation engine in
`src/app.py` (`update_banned_ips`, lines 208-279), with an inline
timestamp resolver inside `get_banned_ips_with_actual_ban_times`
(lines 318-343), and fail-soft jail-listing front ends
(`get_all_jails` in `src/app.py`, `Fail2banService.get_jails` in
`src/fail2ban_service.py`).

Shallow embedding conventions:
  - Python exceptions are modelled by `PyExc`; code that can raise is
    `Except PyExc`-valued, and `try`/`except` blocks become `match`es on
    that result catching exactly the exception constructors the Python
    handler names.
  - `datetime` values are modelled by `PyDatetime`: either timezone-aware
    (carrying an absolute instant, in seconds) or naive (carrying a local
    clock value).  Comparing an aware and a naive datetime raises
    `TypeError`, as in Python.
  - The ISO-8601 strings stored in the `banned_at` field are abstracted by
    `TimeStr`, classified by how `datetime.fromisoformat` treats them:
    an offset-carrying string (`awareIso`), an offset-less string
    (`naiveIso`), or an unparsable string (`invalid`).
  - Strings fed to the resolver and the jail parsers are genuine Lean
    `String`s; all character-level operations are implemented from scratch
    with structural recursion so concrete instances evaluate in the kernel.
-/

/-- Python exception classes appearing in the repository's handlers.  All
constructors model subclasses of `Exception`, so a bare `except:` or an
`except Exception:` catches every one of them. -/
inductive PyExc
  | valueError
  | typeError
  | overflowError
  | osError
  | fileNotFoundError
  | timeoutExpired
  | runtimeError (msg : String)
deriving DecidableEq

deriving instance DecidableEq for Except

/-- Characters matched by Python's regex `\s` / stripped by `str.strip()`
(ASCII range; the repository only handles ASCII daemon output). -/
def isPySpace (c : Char) : Bool :=
  c = ' ' || c = '\t' || c = '\n' || c = '\r' || c = '\x0b' || c = '\x0c'

/-- Python `str.split(sep)` for a one-character separator, on char lists.
Like Python's `split`, it keeps empty segments. -/
def splitOnChar (sep : Char) : List Char → List (List Char)
  | [] => [[]]
  | c :: rest =>
    if c = sep then [] :: splitOnChar sep rest
    else
      match splitOnChar sep rest with
      | [] => [[c]]
      | seg :: segs => (c :: seg) :: segs

/-- Python `str.strip()` on char lists: whitespace removed from both ends. -/
def pyStripChars (cs : List Char) : List Char :=
  ((cs.dropWhile isPySpace).reverse.dropWhile isPySpace).reverse

/-- Split a char list at the first occurrence of `marker`, returning the
text before it and the raw remainder after it; `none` when the marker does
not occur.  This models Python's substring search (`marker in s`,
`s.split(marker)`, `re.search` at a literal). -/
def findMarkerSplit (marker : List Char) : List Char → Option (List Char × List Char)
  | [] => none
  | c :: rest =>
    if marker.isPrefixOf (c :: rest) then some ([], (c :: rest).drop marker.length)
    else
      match findMarkerSplit marker rest with
      | some (pre, post) => some (c :: pre, post)
      | none => none

/-- Numeric value of a digit string (used for the all-digit segments the
epoch branch and `strptime` field matching produce). -/
def natOfDigits (cs : List Char) : Nat :=
  cs.foldl (fun a c => a * 10 + (c.toNat - 48)) 0

/-- Python `datetime` values: timezone-aware (an absolute instant, seconds)
or naive (a local clock reading with no offset attached). -/
inductive PyDatetime
  | aware (t : Int)
  | naive (t : Int)
deriving DecidableEq

/-- ISO-8601 timestamp strings, abstracted by their
`datetime.fromisoformat` parse behaviour: `awareIso t` is a string carrying
a UTC offset and denoting instant `t`, `naiveIso t` is an offset-less
string with local value `t`, `invalid s` is a string `fromisoformat`
rejects. -/
inductive TimeStr
  | awareIso (t : Int)
  | naiveIso (t : Int)
  | invalid (s : String)
deriving DecidableEq

/-- Model of `datetime.fromisoformat` (`src/app.py:250`): parses the stored
`banned_at` string, raising `ValueError` on an unparsable string. -/
def fromisoformat : TimeStr → Except PyExc PyDatetime
  | TimeStr.awareIso t => Except.ok (PyDatetime.aware t)
  | TimeStr.naiveIso t => Except.ok (PyDatetime.naive t)
  | TimeStr.invalid _ => Except.error PyExc.valueError

/-- Model of Python's `>` on datetimes (`src/app.py:251`): aware instants
and naive local values compare among themselves; mixing an aware and a
naive operand raises `TypeError`. -/
def pyGt : PyDatetime → PyDatetime → Except PyExc Bool
  | PyDatetime.aware a, PyDatetime.aware b => Except.ok (decide (a > b))
  | PyDatetime.naive a, PyDatetime.naive b => Except.ok (decide (a > b))
  | _, _ => Except.error PyExc.typeError

/-! ## The timestamp resolver of `get_banned_ips_with_actual_ban_times`
(`src/app.py:318-343`).  It receives the two awk fields `ban_date` and
`ban_time` and the wall clock at resolution time, and produces the string
stored as `banned_at`.  All its outputs are naive datetimes
(`datetime.fromtimestamp`, `datetime.strptime`, `datetime.now` all yield
naive values), represented here by their numeric value (`ℚ`, since the
epoch branch admits fractional seconds). -/

/-- The string `ban_date.replace('.', '')` of `src/app.py:324`. -/
def removeDots (s : String) : List Char :=
  s.toList.filter (fun c => c ≠ '.')

/-- Python `str.isdigit` on char lists (ASCII digits; the daemon output the
repository parses is ASCII). -/
def pyIsdigit (cs : List Char) : Bool :=
  !cs.isEmpty && cs.all Char.isDigit

/-- The guard of the epoch branch, `ban_date.replace('.', '').isdigit()`
(`src/app.py:324`): true when the primary field with every period removed
is a non-empty digit string. -/
def epochBranchCond (s : String) : Bool :=
  pyIsdigit (removeDots s)

/-- Model of `float(ban_date)` (`src/app.py:325`) on the strings it can
receive under the epoch-branch guard (digits and periods): at most one
period with at least one digit parses to its value, anything else raises
`ValueError`. -/
def pyFloatDots (s : String) : Except PyExc ℚ :=
  match splitOnChar '.' s.toList with
  | [intPart] =>
    if intPart ≠ [] ∧ intPart.all Char.isDigit then
      Except.ok (natOfDigits intPart : ℚ)
    else Except.error PyExc.valueError
  | [a, b] =>
    if (a ≠ [] ∨ b ≠ []) ∧ a.all Char.isDigit ∧ b.all Char.isDigit then
      Except.ok ((natOfDigits a : ℚ) + (natOfDigits b : ℚ) / (10 : ℚ) ^ b.length)
    else Except.error PyExc.valueError
  | _ => Except.error PyExc.valueError

/-- Smallest epoch value `datetime.fromtimestamp` accepts (year 1). -/
def pyTsMin : ℚ := -62135596800

/-- Largest epoch value `datetime.fromtimestamp` accepts (year 9999). -/
def pyTsMax : ℚ := 253402300799

/-- Model of `datetime.fromtimestamp` (`src/app.py:325`): converts an epoch
value to a naive local datetime denoting that instant, raising
`OverflowError`/`OSError` outside the representable datetime range.  The
naive result is represented by the instant itself. -/
def pyFromtimestamp (t : ℚ) : Except PyExc ℚ :=
  if pyTsMin ≤ t ∧ t ≤ pyTsMax then Except.ok t else Except.error PyExc.overflowError

/-! Model of `datetime.strptime` against the repository's four candidate
formats (`src/app.py:331`).  Numeric fields follow `_strptime`'s regexes:
`%Y` is exactly four digits, the two-digit fields prefer the two-digit
reading and fall back to one digit when the longer reading fails, and the
literal space matches a whitespace run.  The parsed naive datetime is
represented by its signed offset in seconds from 1970-01-01 00:00:00
(proleptic Gregorian), and field/calendar validation mirrors `datetime`
construction. -/

/-- Exactly `n` leading digits, returning their value and the remainder. -/
def takeNDigitsAux : Nat → Nat → List Char → Option (Nat × List Char)
  | 0, acc, cs => some (acc, cs)
  | n + 1, acc, c :: cs =>
    if c.isDigit then takeNDigitsAux n (acc * 10 + (c.toNat - 48)) cs else none
  | _ + 1, _, [] => none

/-- Exactly `n` leading digits. -/
def takeNDigits (n : Nat) (cs : List Char) : Option (Nat × List Char) :=
  takeNDigitsAux n 0 cs

/-- Candidate readings of a one-or-two-digit numeric field, longest first,
mirroring the alternation order of `_strptime`'s field regexes. -/
def take12Cands : List Char → List (Nat × List Char)
  | [] => []
  | [a] => if a.isDigit then [(a.toNat - 48, [])] else []
  | a :: b :: rest =>
    if a.isDigit then
      if b.isDigit then
        [((a.toNat - 48) * 10 + (b.toNat - 48), rest), (a.toNat - 48, b :: rest)]
      else [(a.toNat - 48, b :: rest)]
    else []

/-- Candidate readings of a one-or-two-digit field restricted to
`lo ≤ value ≤ hi`. -/
def take12 (lo hi : Nat) (cs : List Char) : List (Nat × List Char) :=
  (take12Cands cs).filter (fun p => lo ≤ p.fst && p.fst ≤ hi)

/-- Try the candidate field readings in order until the continuation
succeeds: regex backtracking across a field boundary. -/
def seqCands {α : Type} : List (Nat × List Char) → (Nat → List Char → Option α) → Option α
  | [], _ => none
  | (v, r) :: more, k =>
    match k v r with
    | some x => some x
    | none => seqCands more k

/-- Consume one literal character. -/
def expectChar (c : Char) : List Char → Option (List Char)
  | [] => none
  | x :: rest => if x = c then some rest else none

/-- Consume a non-empty whitespace run (a literal space in a `strptime`
format matches `\s+`). -/
def expectSpaces : List Char → Option (List Char)
  | [] => none
  | x :: rest => if isPySpace x then some (rest.dropWhile isPySpace) else none

/-- Gregorian leap-year test. -/
def isLeap (y : Nat) : Bool :=
  (y % 4 = 0 && y % 100 ≠ 0) || y % 400 = 0

/-- Length of a month. -/
def daysInMonth (y m : Nat) : Nat :=
  if m = 2 then (if isLeap y then 29 else 28)
  else if m = 4 ∨ m = 6 ∨ m = 9 ∨ m = 11 then 30
  else 31

/-- Days in year `y` before month `m`. -/
def daysBeforeMonth (y m : Nat) : Nat :=
  (List.range (m - 1)).foldl (fun a i => a + daysInMonth y (i + 1)) 0

/-- Proleptic Gregorian ordinal of a date (day 1 is 0001-01-01), as in
Python's `datetime.toordinal`. -/
def toOrdinal (y m d : Nat) : Nat :=
  365 * (y - 1) + (y - 1) / 4 - (y - 1) / 100 + (y - 1) / 400 + daysBeforeMonth y m + d

/-- Ordinal of 1970-01-01, the reference point for naive values. -/
def epochOrdinal : Nat := 719163

/-- Construct a naive datetime value from parsed fields, performing the
range and calendar validation `datetime(...)` does (`MINYEAR = 1`; day
bounded by the month's length). -/
def mkNaiveVal (y mo d h mi s : Nat) : Option ℚ :=
  if 1 ≤ y ∧ 1 ≤ mo ∧ mo ≤ 12 ∧ 1 ≤ d ∧ d ≤ daysInMonth y mo then
    some (((((toOrdinal y mo d : Int) - (epochOrdinal : Int)) * 86400
      + (h : Int) * 3600 + (mi : Int) * 60 + (s : Int) : Int) : ℚ))
  else none

/-- Parse the `HH:MM[:SS]` tail of a format and finish with `k`. -/
def parseClock (withSec : Bool) (cs : List Char)
    (k : Nat → Nat → Nat → List Char → Option ℚ) : Option ℚ :=
  seqCands (take12 0 23 cs) fun h r =>
  (expectChar ':' r).bind fun r =>
  seqCands (take12 0 59 r) fun mi r =>
  if withSec then
    (expectChar ':' r).bind fun r =>
    seqCands (take12 0 59 r) fun s r => k h mi s r
  else k h mi 0 r

/-- `datetime.strptime` against `%Y-%m-%d %H:%M:%S` (`withSec = true`) or
`%Y-%m-%d %H:%M` (`withSec = false`); the whole input must be consumed. -/
def strptimeYmd (withSec : Bool) (cs : List Char) : Option ℚ :=
  (takeNDigits 4 cs).bind fun (y, r) =>
  (expectChar '-' r).bind fun r =>
  seqCands (take12 1 12 r) fun mo r =>
  (expectChar '-' r).bind fun r =>
  seqCands (take12 1 31 r) fun d r =>
  (expectSpaces r).bind fun r =>
  parseClock withSec r fun h mi s r =>
    match r with
    | [] => mkNaiveVal y mo d h mi s
    | _ => none

/-- `datetime.strptime` against `%m/%d/%Y %H:%M:%S` (`withSec = true`) or
`%m/%d/%Y %H:%M` (`withSec = false`); the whole input must be consumed. -/
def strptimeMdy (withSec : Bool) (cs : List Char) : Option ℚ :=
  seqCands (take12 1 12 cs) fun mo r =>
  (expectChar '/' r).bind fun r =>
  seqCands (take12 1 31 r) fun d r =>
  (expectChar '/' r).bind fun r =>
  (takeNDigits 4 r).bind fun (y, r) =>
  (expectSpaces r).bind fun r =>
  parseClock withSec r fun h mi s r =>
    match r with
    | [] => mkNaiveVal y mo d h mi s
    | _ => none

/-- The ordered candidate format list of `src/app.py:331`:
`['%Y-%m-%d %H:%M:%S', '%m/%d/%Y %H:%M:%S', '%Y-%m-%d %H:%M',
'%m/%d/%Y %H:%M']`. -/
def strptimeFormats : List (List Char → Option ℚ) :=
  [strptimeYmd true, strptimeMdy true, strptimeYmd false, strptimeMdy false]

/-- The `for fmt in [...]` loop of `src/app.py:331-337`: try each format,
`except ValueError: continue`, keep the prevailing default when none
matches.  (`strptime` failures are `ValueError`s, so the enclosing bare
`except` of line 338 is unreachable.) -/
def formatLoop (full : List Char) (dflt : ℚ) : List (List Char → Option ℚ) → ℚ
  | [] => dflt
  | p :: ps =>
    match p full with
    | some v => v
    | none => formatLoop full dflt ps

/-- The timestamp resolver of `src/app.py:318-343`, for one parsed output
line: `banDate` and `banTime` are the two raw fields, `now` the wall clock
at resolution time (the `datetime.now()` default of line 320).  The final
`match` is the `except (ValueError, OverflowError, OSError)` handler of
line 341; any other exception class would propagate. -/
def resolve_ban_time (banDate banTime : String) (now : ℚ) : Except PyExc ℚ :=
  let body : Except PyExc ℚ :=
    if epochBranchCond banDate then
      (pyFloatDots banDate).bind pyFromtimestamp
    else
      Except.ok (formatLoop ((banDate ++ " " ++ banTime).toList) now strptimeFormats)
  match body with
  | Except.ok v => Except.ok v
  | Except.error PyExc.valueError => Except.ok now
  | Except.error PyExc.overflowError => Except.ok now
  | Except.error PyExc.osError => Except.ok now
  | Except.error e => Except.error e

/-- Holds when neither parse branch of the resolver succeeds on the given
raw fields: the epoch branch fails (or is not taken) and every candidate
format rejects the concatenated string. -/
def parseFails (banDate banTime : String) : Bool :=
  if epochBranchCond banDate then
    match (pyFloatDots banDate).bind pyFromtimestamp with
    | Except.ok _ => false
    | Except.error _ => true
  else
    strptimeFormats.all fun p => (p ((banDate ++ " " ++ banTime).toList)).isNone

/-! ## The reconciliation engine: `update_banned_ips` (`src/app.py:208-279`).

Collaborator behaviour is passed in as data: the jail list, the per-jail
banned-address query, the raw ban-time dictionary built by
`get_banned_ips_with_actual_ban_times`, and the loaded store contents.
For the failure-semantics claims each collaborator result is
`Except PyExc`-valued; the happy-path engine `update_banned_ips` is the
same pipeline with always-succeeding collaborators. -/

/-- One entry of the `ips` list in `banned_ips.json`
(`src/app.py:233-238`). -/
structure IpRecord where
  ip_address : String
  jail : String
  banned_at : TimeStr
  abuse_url : String
deriving DecidableEq

/-- The persisted snapshot shape (`src/app.py:270-273`): the record list
plus `last_updated`. -/
structure BannedData where
  ips : List IpRecord
  last_updated : Option TimeStr
deriving DecidableEq

/-- The dictionary/set key `f"{ip}_{jail}"` used at `src/app.py:230, 260,
265`. -/
def ipJailKey (ip jail : String) : String :=
  ip ++ "_" ++ jail

/-- The key of a stored record, `f"{ip_record['ip_address']}_{ip_record['jail']}"`. -/
def recordKey (r : IpRecord) : String :=
  ipJailKey r.ip_address r.jail

/-- `timedelta(weeks=1)` in seconds (`src/app.py:245`). -/
def oneWeekSeconds : Int := 604800

/-- The body of the expire `try` block (`src/app.py:249-255`) as a
predicate on the stored `banned_at` string: keep when the parsed datetime
compares strictly greater than the aware cutoff `one_week_ago`; any
exception (unparsable string, or the `TypeError` from comparing a naive
datetime with the aware cutoff) hits the bare `except` and keeps the
record. -/
def keepTime (cutoff : Int) (t : TimeStr) : Bool :=
  match (fromisoformat t).bind (fun dt => pyGt dt (PyDatetime.aware cutoff)) with
  | Except.ok b => b
  | Except.error _ => true

/-- The expire filter applied to one existing record
(`src/app.py:248-255`). -/
def expireKeeps (cutoff : Int) (r : IpRecord) : Bool :=
  keepTime cutoff r.banned_at

/-- One record of the current observation set (`src/app.py:228-239`):
`banned_at` is the raw-time lookup for `f"{ip}_{jail}"` with the aware
`current_time.isoformat()` as the `dict.get` fallback. -/
def mkIpRecord (jail ip : String) (banTimes : String → Option TimeStr)
    (cur : TimeStr) : IpRecord :=
  { ip_address := ip
    jail := jail
    banned_at := (banTimes (ipJailKey ip jail)).getD cur
    abuse_url := "https://abuseipdb.com/check/" ++ ip }

/-- The jail loop of `src/app.py:226-239` with a fallible per-jail query:
for each jail in order, fetch its banned addresses and materialize records
in order. -/
def buildAllIpsE (bannedForR : String → Except PyExc (List String))
    (banTimes : String → Option TimeStr) (cur : TimeStr) :
    List String → Except PyExc (List IpRecord)
  | [] => Except.ok []
  | jail :: rest => do
    let ips ← bannedForR jail
    let tl ← buildAllIpsE bannedForR banTimes cur rest
    pure (ips.map (fun ip => mkIpRecord jail ip banTimes cur) ++ tl)

/-- The current observation set (`all_ips`) for non-failing collaborators. -/
def buildCurrentRecords (jails : List String) (bannedFor : String → List String)
    (banTimes : String → Option TimeStr) (cur : TimeStr) : List IpRecord :=
  jails.flatMap fun jail =>
    (bannedFor jail).map fun ip => mkIpRecord jail ip banTimes cur

/-- The merge step (`src/app.py:257-267`): freeze the key set of the
post-expire records, then append every observed record whose key is not in
that frozen set.  The key set is not extended while appending, exactly as
in the source. -/
def mergeRecords (cleaned allIps : List IpRecord) : List IpRecord :=
  let existingKeys := cleaned.map recordKey
  cleaned ++ allIps.filter (fun r => !(existingKeys.contains (recordKey r)))

/-- Steps 1-7 of one reconciliation pass, inside the `try` of
`update_banned_ips` (`src/app.py:210-276`), in source order: jail list,
raw ban times, jail loop, load, expire, merge, and the new snapshot with
`last_updated = current_time.isoformat()`.  Any collaborator exception
aborts the sequence. -/
def runPassBody (jailsR : Except PyExc (List String))
    (bannedForR : String → Except PyExc (List String))
    (banTimesR : Except PyExc (String → Option TimeStr))
    (loadR : Except PyExc BannedData) (now : Int) : Except PyExc BannedData := do
  let jails ← jailsR
  let banTimes ← banTimesR
  let allIps ← buildAllIpsE bannedForR banTimes (TimeStr.awareIso now) jails
  let existing ← loadR
  let cleaned := existing.ips.filter (expireKeeps (now - oneWeekSeconds))
  pure { ips := mergeRecords cleaned allIps
         last_updated := some (TimeStr.awareIso now) }

/-- `update_banned_ips` as a transformer of the persisted store: on success
the computed snapshot is saved; the `except Exception` handler of
`src/app.py:278-279` catches any failure, logs, and leaves the previously
saved snapshot in place. -/
def runPass (jailsR : Except PyExc (List String))
    (bannedForR : String → Except PyExc (List String))
    (banTimesR : Except PyExc (String → Option TimeStr))
    (loadR : Except PyExc BannedData) (now : Int) (store : BannedData) : BannedData :=
  match runPassBody jailsR bannedForR banTimesR loadR now with
  | Except.ok d => d
  | Except.error _ => store

/-- One reconciliation pass with non-failing collaborators reading the
persisted store: the happy path of `update_banned_ips`. -/
def update_banned_ips (jails : List String) (bannedFor : String → List String)
    (banTimes : String → Option TimeStr) (now : Int) (store : BannedData) : BannedData :=
  runPass (Except.ok jails) (fun j => Except.ok (bannedFor j)) (Except.ok banTimes)
    (Except.ok store) now store

/-! ## Jail listing: `get_all_jails` (`src/app.py:110-150`) and
`Fail2banService.get_jails` (`src/fail2ban_service.py:69-98`).

Each `subprocess.run` invocation either completes with an exit status and
captured stdout or raises; that outcome is the model's input. -/

/-- Outcome of one `subprocess.run` invocation. -/
inductive RunOutcome
  | done (rc : Int) (stdout : String)
  | raised (e : PyExc)
deriving DecidableEq

/-- The literal marker `'Jail list:'`. -/
def jailMarker : List Char := "Jail list:".toList

/-- Python `'Jail list:' in line`. -/
def hasMarker (line : List Char) : Bool :=
  (findMarkerSplit jailMarker line).isSome

/-- The successful-status parse of `src/app.py:132-139`: find the first
line containing `'Jail list:'`, take `line.split('Jail list:')[1]` (the
segment between the first and second marker, or everything after the
marker when it occurs once), strip it, split on commas, strip the pieces
and drop empties; default to `["sshd"]` when no line matches. -/
def parse_jail_status (out : String) : List String :=
  match (splitOnChar '\n' out.toList).find? hasMarker with
  | some line =>
    let part :=
      match findMarkerSplit jailMarker line with
      | some (_, post) =>
        match findMarkerSplit jailMarker post with
        | some (pre, _) => pre
        | none => post
      | none => []
    let stripped := pyStripChars part
    (((splitOnChar ',' stripped).map pyStripChars).filter (fun j => j ≠ [])).map String.mk
  | none => ["sshd"]

/-- The command-fallback loop of `get_all_jails` (`src/app.py:121-147`)
over the outcomes of the attempted commands: `FileNotFoundError` moves to
the next command, a non-zero exit status logs and moves on, exit status 0
returns the parsed status output, any other exception propagates, and
falling off the end returns the default `["sshd"]`. -/
def get_all_jails_loop : List RunOutcome → Except PyExc (List String)
  | [] => Except.ok ["sshd"]
  | RunOutcome.done rc out :: rest =>
    if rc = 0 then Except.ok (parse_jail_status out) else get_all_jails_loop rest
  | RunOutcome.raised e :: rest =>
    if e = PyExc.fileNotFoundError then get_all_jails_loop rest else Except.error e

/-- `get_all_jails` (`src/app.py:110-150`): the loop wrapped in the
`except Exception` handler of line 148, which turns any escaped exception
into the default `["sshd"]`. -/
def get_all_jails (outs : List RunOutcome) : List String :=
  match get_all_jails_loop outs with
  | Except.ok js => js
  | Except.error _ => ["sshd"]

/-- `re.search(r'Jail list:\s*(.+)', output)` of
`src/fail2ban_service.py:85-86`, returning the captured group: after the
first marker, `\s*` greedily consumes whitespace (newlines included) and
`(.+)` captures a non-empty run of non-newline characters, backtracking
into the whitespace run when nothing else follows. -/
def re_search_jail_list (out : String) : Option (List Char) :=
  match findMarkerSplit jailMarker out.toList with
  | none => none
  | some (_, post) =>
    match post.dropWhile isPySpace with
    | c :: rest => some ((c :: rest).takeWhile (fun x => x ≠ '\n'))
    | [] =>
      match post.reverse.find? (fun c => c ≠ '\n') with
      | some c => some [c]
      | none => none

/-- `Fail2banService.get_jails` (`src/fail2ban_service.py:69-98`): any
exception from the invocation returns `[]` via the `except Exception`
handler; a non-zero exit returns `[]`; on exit 0 the regex capture is
stripped and, when non-empty, split on commas with each piece stripped
(empty pieces are kept, as in the source's list comprehension). -/
def service_get_jails : RunOutcome → List String
  | RunOutcome.raised _ => []
  | RunOutcome.done rc out =>
    if rc ≠ 0 then []
    else
      match re_search_jail_list out with
      | none => []
      | some g =>
        let s := pyStripChars g
        if s = [] then []
        else ((splitOnChar ',' s).map pyStripChars).map String.mk

/-! ## Helper lemmas -/

theorem contains_iff_mem_str (l : List String) (s : String) :
    l.contains s = true ↔ s ∈ l := by
  exact @List.elem_iff String _ _ s l

theorem buildAllIpsE_ok (bf : String → List String) (bt : String → Option TimeStr)
    (cur : TimeStr) (jails : List String) :
    buildAllIpsE (fun j => Except.ok (bf j)) bt cur jails =
      Except.ok (buildCurrentRecords jails bf bt cur) := by
  induction jails with
  | nil => rfl
  | cons j rest ih =>
    simp [buildAllIpsE, buildCurrentRecords, ih, List.flatMap_cons]
    rfl

theorem update_banned_ips_eq (jails : List String) (bf : String → List String)
    (bt : String → Option TimeStr) (now : Int) (store : BannedData) :
    update_banned_ips jails bf bt now store =
      { ips := mergeRecords (store.ips.filter (expireKeeps (now - oneWeekSeconds)))
          (buildCurrentRecords jails bf bt (TimeStr.awareIso now))
        last_updated := some (TimeStr.awareIso now) } := by
  simp [update_banned_ips, runPass, runPassBody, buildAllIpsE_ok, bind, Except.bind,
    pure, Except.pure]

theorem mem_mergeRecords (c a : List IpRecord) (r : IpRecord) :
    r ∈ mergeRecords c a ↔
      r ∈ c ∨ (r ∈ a ∧ recordKey r ∉ c.map recordKey) := by
  simp only [mergeRecords, List.mem_append, List.mem_filter,
    Bool.not_eq_true']
  constructor
  · rintro (h | ⟨ha, hk⟩)
    · exact Or.inl h
    · refine Or.inr ⟨ha, fun hmem => ?_⟩
      rw [← contains_iff_mem_str] at hmem
      rw [hmem] at hk
      exact Bool.noConfusion hk
  · rintro (h | ⟨ha, hk⟩)
    · exact Or.inl h
    · refine Or.inr ⟨ha, ?_⟩
      by_cases hc : (c.map recordKey).contains (recordKey r) = true
      · exact absurd ((contains_iff_mem_str _ _).mp hc) hk
      · simpa using hc

theorem mem_buildCurrentRecords (jails : List String) (bf : String → List String)
    (bt : String → Option TimeStr) (cur : TimeStr) (r : IpRecord)
    (h : r ∈ buildCurrentRecords jails bf bt cur) :
    r.banned_at = (bt (recordKey r)).getD cur := by
  simp only [buildCurrentRecords, List.mem_flatMap, List.mem_map] at h
  obtain ⟨jail, _, ip, _, rfl⟩ := h
  rfl

/-! ## Claim theorems -/

/-- Claim C1 (code bug evaluation): when the jail list reports the same
jail twice, one reconciliation pass from the empty store saves two records
with the identical (`ip_address`, `jail`) key — the merge loop freezes
`existing_ip_keys` before appending and never extends it, so the saved
snapshot violates key uniqueness, contrary to the spec's invariant and the
source's own "avoid duplicates" comment. -/
theorem update_banned_ips_duplicate_key_eval :
    ((update_banned_ips ["sshd", "sshd"] (fun _ => ["1.2.3.4"]) (fun _ => none) 0
        { ips := [], last_updated := none }).ips.map recordKey) =
      ["1.2.3.4_sshd", "1.2.3.4_sshd"] ∧
    ¬ List.Nodup ((update_banned_ips ["sshd", "sshd"] (fun _ => ["1.2.3.4"]) (fun _ => none) 0
        { ips := [], last_updated := none }).ips.map recordKey) :=
  ⟨by decide, by decide⟩

/-- Claim C2: every record surviving the expire step is carried into the
saved snapshot unchanged, and every record of the saved snapshot bearing
that key is one of the surviving store records — the merge never replaces
or refreshes an existing key, so the first-recorded `banned_at` is
preserved across passes. -/
theorem first_seen_banned_at_preserved (jails : List String)
    (bf : String → List String) (bt : String → Option TimeStr)
    (now : Int) (store : BannedData) (r : IpRecord)
    (h : r ∈ store.ips.filter (expireKeeps (now - oneWeekSeconds))) :
    r ∈ (update_banned_ips jails bf bt now store).ips ∧
    ∀ r' ∈ (update_banned_ips jails bf bt now store).ips,
      recordKey r' = recordKey r →
      r' ∈ store.ips.filter (expireKeeps (now - oneWeekSeconds)) := by
  rw [update_banned_ips_eq]
  constructor
  · exact (mem_mergeRecords _ _ _).mpr (Or.inl h)
  · intro r' hr' hkey
    rcases (mem_mergeRecords _ _ _).mp hr' with h1 | ⟨_, hnot⟩
    · exact h1
    · exact absurd (by rw [hkey]; exact List.mem_map_of_mem recordKey h) hnot

theorem first_seen_banned_at_preserved_witness :
    ({ ip_address := "1.2.3.4", jail := "sshd", banned_at := TimeStr.awareIso 0,
       abuse_url := "u" } : IpRecord) ∈
      (update_banned_ips [] (fun _ => []) (fun _ => none) 0
        { ips := [{ ip_address := "1.2.3.4", jail := "sshd",
                    banned_at := TimeStr.awareIso 0, abuse_url := "u" }],
          last_updated := none }).ips :=
  (first_seen_banned_at_preserved [] (fun _ => []) (fun _ => none) 0 _ _ (by decide)).1

/-- Claim C3 (counterexample): a record whose `banned_at` is exactly
`now - 7 days` is removed by the pass, because the source keeps a record
only when `banned_time > one_week_ago` holds strictly — the claim asserts
such a boundary record is retained. -/
theorem expire_boundary_exact_cutoff_dropped :
    (update_banned_ips [] (fun _ => []) (fun _ => none) 604800
      { ips := [{ ip_address := "1.2.3.4", jail := "sshd",
                  banned_at := TimeStr.awareIso 0, abuse_url := "u" }],
        last_updated := none }).ips = [] := by decide

/-- Claim C3 (amended): for an existing record whose `banned_at` parses to
an aware datetime at instant `t`, the expire step of a pass retains it
exactly when `t` is strictly newer than `now - 7 days`; hence a record at
`now - 8 days` is removed, one at `now - 6 days` is retained, and one at
exactly `now - 7 days` is removed. -/
theorem expire_keeps_iff_strictly_newer (now : Int) (r : IpRecord) (t : Int)
    (h : fromisoformat r.banned_at = Except.ok (PyDatetime.aware t)) :
    expireKeeps (now - oneWeekSeconds) r = true ↔ t > now - oneWeekSeconds := by
  cases hb : r.banned_at with
  | awareIso u =>
    rw [hb] at h
    simp only [fromisoformat, Except.ok.injEq, PyDatetime.aware.injEq] at h
    subst h
    simp [expireKeeps, keepTime, hb, fromisoformat, pyGt, bind, Except.bind]
  | naiveIso u =>
    rw [hb] at h
    simp [fromisoformat] at h
  | invalid s =>
    rw [hb] at h
    simp [fromisoformat] at h

theorem expire_keeps_iff_strictly_newer_witness :
    expireKeeps (604800 - oneWeekSeconds)
      { ip_address := "1.2.3.4", jail := "sshd", banned_at := TimeStr.awareIso 86400,
        abuse_url := "u" } = true :=
  (expire_keeps_iff_strictly_newer 604800
      { ip_address := "1.2.3.4", jail := "sshd", banned_at := TimeStr.awareIso 86400,
        abuse_url := "u" } 86400 rfl).mpr (by decide)

/-- Claim C7: for every behaviour of the collaborators (any of them may
raise any exception), the reconciliation entry point either commits the
snapshot computed by the pass body or — when the body fails — leaves the
previously saved snapshot unchanged; it never propagates an exception.  In
particular a failing jail query or a failing store load always leaves the
store untouched. -/
theorem run_never_propagates (jR : Except PyExc (List String))
    (bR : String → Except PyExc (List String))
    (tR : Except PyExc (String → Option TimeStr))
    (lR : Except PyExc BannedData) (now : Int) (store : BannedData) (e : PyExc) :
    ((∃ d, runPassBody jR bR tR lR now = Except.ok d ∧
        runPass jR bR tR lR now store = d) ∨
     (∃ e', runPassBody jR bR tR lR now = Except.error e' ∧
        runPass jR bR tR lR now store = store)) ∧
    runPass (Except.error e) bR tR lR now store = store ∧
    runPass jR bR tR (Except.error e) now store = store := by
  refine ⟨?_, ?_, ?_⟩
  · cases h : runPassBody jR bR tR lR now with
    | ok d => exact Or.inl ⟨d, rfl, by simp [runPass, h]⟩
    | error e' => exact Or.inr ⟨e', rfl, by simp [runPass, h]⟩
  · simp [runPass, runPassBody, bind, Except.bind]
  · cases jR with
    | error e1 => simp [runPass, runPassBody, bind, Except.bind]
    | ok jails =>
      cases tR with
      | error e2 => simp [runPass, runPassBody, bind, Except.bind]
      | ok bt =>
        cases hA : buildAllIpsE bR bt (TimeStr.awareIso now) jails with
        | error e3 => simp [runPass, runPassBody, bind, Except.bind, hA]
        | ok allIps => simp [runPass, runPassBody, bind, Except.bind, hA]

/-- Claim C9: from the empty store, with the daemon reporting jail `sshd`
with the single banned address `10.0.0.5` and no raw-time data, one pass
saves exactly one record whose `banned_at` is the pass's `current_time`,
and `last_updated` is that same instant. -/
theorem end_to_end_single_record : ∀ now : Int,
    update_banned_ips ["sshd"] (fun j => if j = "sshd" then ["10.0.0.5"] else [])
      (fun _ => none) now { ips := [], last_updated := none } =
    { ips := [{ ip_address := "10.0.0.5", jail := "sshd",
                banned_at := TimeStr.awareIso now,
                abuse_url := "https://abuseipdb.com/check/10.0.0.5" }],
      last_updated := some (TimeStr.awareIso now) } :=
  fun _ => rfl

/-- Claim C10: a stored record whose `banned_at` string parses to a naive
(offset-less) datetime is never removed by a reconciliation pass, however
old its value: the comparison of the naive datetime with the aware cutoff
raises `TypeError` inside the guarded expire block and the bare handler
keeps the record. -/
theorem naive_timestamp_never_expired (jails : List String)
    (bf : String → List String) (bt : String → Option TimeStr)
    (now : Int) (store : BannedData) (r : IpRecord) (t : Int)
    (hparse : fromisoformat r.banned_at = Except.ok (PyDatetime.naive t))
    (hmem : r ∈ store.ips) :
    r ∈ (update_banned_ips jails bf bt now store).ips := by
  rw [update_banned_ips_eq]
  refine (mem_mergeRecords _ _ _).mpr (Or.inl ?_)
  refine List.mem_filter.mpr ⟨hmem, ?_⟩
  simp [expireKeeps, keepTime, hparse, pyGt, bind, Except.bind]

theorem naive_timestamp_never_expired_witness :
    ({ ip_address := "9.9.9.9", jail := "sshd",
       banned_at := TimeStr.naiveIso (-999999999), abuse_url := "u" } : IpRecord) ∈
      (update_banned_ips [] (fun _ => []) (fun _ => none) 1000000000
        { ips := [{ ip_address := "9.9.9.9", jail := "sshd",
                    banned_at := TimeStr.naiveIso (-999999999), abuse_url := "u" }],
          last_updated := none }).ips :=
  naive_timestamp_never_expired [] (fun _ => []) (fun _ => none) 1000000000 _ _
    (-999999999) rfl (by decide)

theorem buildCurrentRecords_key_det (jails : List String) (bf : String → List String)
    (bt : String → Option TimeStr) (cur : TimeStr) (cutoff : Int) :
    ∀ r s, r ∈ buildCurrentRecords jails bf bt cur →
      s ∈ buildCurrentRecords jails bf bt cur →
      recordKey r = recordKey s → expireKeeps cutoff r = expireKeeps cutoff s := by
  intro r s hr hs hk
  have h1 := mem_buildCurrentRecords jails bf bt cur r hr
  have h2 := mem_buildCurrentRecords jails bf bt cur s hs
  unfold expireKeeps
  rw [h1, h2, hk]

theorem merge_filter_set_eq (C A : List IpRecord) (K : IpRecord → Bool)
    (hC : ∀ r ∈ C, K r = true)
    (hA : ∀ r s, r ∈ A → s ∈ A → recordKey r = recordKey s → K r = K s)
    (x : IpRecord) :
    x ∈ mergeRecords ((mergeRecords C A).filter K) A ↔ x ∈ mergeRecords C A := by
  constructor
  · intro hx
    rcases (mem_mergeRecords _ _ _).mp hx with h1 | ⟨hxA, hxnot⟩
    · exact (List.mem_filter.mp h1).1
    · refine (mem_mergeRecords _ _ _).mpr (Or.inr ⟨hxA, ?_⟩)
      intro hkey
      rcases List.mem_map.mp hkey with ⟨y, hyC, hyk⟩
      apply hxnot
      refine List.mem_map.mpr ⟨y, ?_, hyk⟩
      exact List.mem_filter.mpr ⟨(mem_mergeRecords _ _ _).mpr (Or.inl hyC), hC y hyC⟩
  · intro hx
    by_cases hKx : K x = true
    · exact (mem_mergeRecords _ _ _).mpr (Or.inl (List.mem_filter.mpr ⟨hx, hKx⟩))
    · have hxC : x ∉ C := fun h => hKx (hC x h)
      rcases (mem_mergeRecords _ _ _).mp hx with h1 | ⟨hxA, hxnot⟩
      · exact absurd h1 hxC
      · refine (mem_mergeRecords _ _ _).mpr (Or.inr ⟨hxA, ?_⟩)
        intro hkey
        rcases List.mem_map.mp hkey with ⟨w, hwC2, hwk⟩
        have hw := List.mem_filter.mp hwC2
        rcases (mem_mergeRecords _ _ _).mp hw.1 with hwC | ⟨hwA, _⟩
        · exact hxnot (List.mem_map.mpr ⟨w, hwC, hwk⟩)
        · have hKeq : K w = K x := hA w x hwA hxA hwk
          rw [hKeq] at hw
          exact hKx hw.2

/-- Claim C4: running the reconciliation pass twice with an unchanged
BanSource output and an unchanged clock is idempotent on the record set —
the snapshot saved by the second pass holds exactly the records of the
first (as a set: no record appears or disappears), and the `last_updated`
field is the only thing the second pass recomputes (here equal, since the
clock input is unchanged). -/
theorem update_banned_ips_idempotent (jails : List String)
    (bf : String → List String) (bt : String → Option TimeStr)
    (now : Int) (store : BannedData) :
    (∀ r, r ∈ (update_banned_ips jails bf bt now
        (update_banned_ips jails bf bt now store)).ips ↔
        r ∈ (update_banned_ips jails bf bt now store).ips) ∧
    (update_banned_ips jails bf bt now
        (update_banned_ips jails bf bt now store)).last_updated =
      (update_banned_ips jails bf bt now store).last_updated := by
  constructor
  · intro r
    rw [update_banned_ips_eq jails bf bt now store,
        update_banned_ips_eq jails bf bt now]
    exact merge_filter_set_eq
      (store.ips.filter (expireKeeps (now - oneWeekSeconds)))
      (buildCurrentRecords jails bf bt (TimeStr.awareIso now))
      (expireKeeps (now - oneWeekSeconds))
      (fun s hs => (List.mem_filter.mp hs).2)
      (buildCurrentRecords_key_det jails bf bt (TimeStr.awareIso now)
        (now - oneWeekSeconds)) r
  · rw [update_banned_ips_eq jails bf bt now store,
        update_banned_ips_eq jails bf bt now]

theorem pyFloatDots_cases (s : String) :
    (∃ v, pyFloatDots s = Except.ok v) ∨ pyFloatDots s = Except.error PyExc.valueError := by
  unfold pyFloatDots
  generalize splitOnChar '.' s.toList = parts
  match parts with
  | [] => exact Or.inr rfl
  | [a] =>
    dsimp only
    split
    · exact Or.inl ⟨_, rfl⟩
    · exact Or.inr rfl
  | [a, b] =>
    dsimp only
    split
    · exact Or.inl ⟨_, rfl⟩
    · exact Or.inr rfl
  | a :: b :: c :: r => exact Or.inr rfl

theorem pyFromtimestamp_cases (t : ℚ) :
    pyFromtimestamp t = Except.ok t ∨
      pyFromtimestamp t = Except.error PyExc.overflowError := by
  unfold pyFromtimestamp
  split
  · exact Or.inl rfl
  · exact Or.inr rfl

theorem formatLoop_all_none (full : List Char) (dflt : ℚ)
    (ps : List (List Char → Option ℚ))
    (h : ∀ p ∈ ps, (p full).isNone = true) : formatLoop full dflt ps = dflt := by
  induction ps with
  | nil => rfl
  | cons p ps ih =>
    have hp := h p (List.mem_cons_self p ps)
    unfold formatLoop
    cases hpf : p full with
    | some v => rw [hpf] at hp; simp at hp
    | none => exact ih (fun q hq => h q (List.mem_cons_of_mem p hq))

/-- Claim C5: the timestamp resolver is total — for every pair of raw
input strings and every resolution-time wall clock it returns a defined
instant (never an uncaught exception: the handler catches exactly the
`ValueError`/`OverflowError`/`OSError` its body can produce) — and when no
parse branch succeeds the returned instant is the wall clock at resolution
time. -/
theorem resolve_ban_time_total_with_fallback (banDate banTime : String) (now : ℚ) :
    ∃ q, resolve_ban_time banDate banTime now = Except.ok q ∧
      (parseFails banDate banTime = true → q = now) := by
  by_cases hc : epochBranchCond banDate = true
  · rcases pyFloatDots_cases banDate with ⟨v, hv⟩ | hv
    · rcases pyFromtimestamp_cases v with hf | hf
      · refine ⟨v, ?_, ?_⟩
        · simp [resolve_ban_time, hc, hv, hf, bind, Except.bind]
        · intro hpf
          simp [parseFails, hc, hv, hf, bind, Except.bind] at hpf
      · refine ⟨now, ?_, fun _ => rfl⟩
        simp [resolve_ban_time, hc, hv, hf, bind, Except.bind]
    · refine ⟨now, ?_, fun _ => rfl⟩
      simp [resolve_ban_time, hc, hv, bind, Except.bind]
  · rw [Bool.not_eq_true] at hc
    refine ⟨formatLoop ((banDate ++ " " ++ banTime).toList) now strptimeFormats, ?_, ?_⟩
    · simp [resolve_ban_time, hc]
    · intro hpf
      simp only [parseFails, hc, Bool.false_eq_true, if_false] at hpf
      exact formatLoop_all_none _ _ _ (List.all_eq_true.mp hpf)

theorem resolve_ban_time_total_with_fallback_witness :
    resolve_ban_time "not-a-date" "not-a-time" 5 = Except.ok 5 := by
  obtain ⟨q, h1, h2⟩ := resolve_ban_time_total_with_fallback "not-a-date" "not-a-time" 5
  rw [h2 (by decide)] at h1
  exact h1

/-- Refinement definition following the spec's wording for the epoch-branch
guard: the primary field "consists only of digits and at most one decimal
point". -/
def specEpochFieldShape (s : String) : Bool :=
  !s.toList.isEmpty && s.toList.all (fun c => c.isDigit || c = '.') &&
    (s.toList.filter (fun c => c = '.')).length ≤ 1

/-- Claim C6 (counterexample): the primary field `"1.2.3"` has more than
one decimal point, so under the claim it must not take the epoch branch —
but the source's guard `ban_date.replace('.', '').isdigit()` is true for
it, so the code does take the epoch branch. -/
theorem epoch_branch_guard_counterexample :
    epochBranchCond "1.2.3" = true ∧ specEpochFieldShape "1.2.3" = false :=
  ⟨by decide, by decide⟩

/-- Claim C6 (amended): the epoch branch is taken exactly when the primary
field with every period removed is a non-empty digit string.  In that
branch the secondary field is ignored and `("1700000000", anything)`
resolves to the instant of that Unix epoch value; a primary field with
more than one decimal point, such as `"1.2.3"`, still takes the epoch
branch, where `float()` raises and the resolver falls back to the current
wall clock — it is never parsed against the date/time format list. -/
theorem epoch_branch_amended : ∀ (t : String) (now : ℚ),
    resolve_ban_time "1700000000" t now = Except.ok 1700000000 ∧
    resolve_ban_time "1.2.3" t now = Except.ok now ∧
    epochBranchCond "1.2.3" = true :=
  fun _ _ => ⟨rfl, rfl, by decide⟩

/-- True when the invocation outcome is exit status 0. -/
def isSuccessRun : RunOutcome → Bool
  | RunOutcome.done rc _ => decide (rc = 0)
  | RunOutcome.raised _ => false

/-- True when `get_all_jails`'s loop moves past this outcome to the next
command: a missing binary or a non-zero exit status. -/
def isSkippableRun : RunOutcome → Bool
  | RunOutcome.done rc _ => decide (rc ≠ 0)
  | RunOutcome.raised e => decide (e = PyExc.fileNotFoundError)

theorem get_all_jails_loop_no_success (outs : List RunOutcome)
    (h : ∀ o ∈ outs, isSuccessRun o = false) :
    get_all_jails_loop outs = Except.ok ["sshd"] ∨
      ∃ e, get_all_jails_loop outs = Except.error e := by
  induction outs with
  | nil => exact Or.inl rfl
  | cons o rest ih =>
    cases o with
    | done rc out =>
      have hrc : rc ≠ 0 := by
        simpa [isSuccessRun] using h _ (List.mem_cons_self _ _)
      rw [show get_all_jails_loop (RunOutcome.done rc out :: rest) =
          get_all_jails_loop rest from by simp [get_all_jails_loop, hrc]]
      exact ih (fun q hq => h q (List.mem_cons_of_mem _ hq))
    | raised e =>
      by_cases he : e = PyExc.fileNotFoundError
      · rw [show get_all_jails_loop (RunOutcome.raised e :: rest) =
            get_all_jails_loop rest from by simp [get_all_jails_loop, he]]
        exact ih (fun q hq => h q (List.mem_cons_of_mem _ hq))
      · exact Or.inr ⟨e, by simp [get_all_jails_loop, he]⟩

theorem get_all_jails_skip (o : RunOutcome) (l : List RunOutcome)
    (h : isSkippableRun o = true) :
    get_all_jails (o :: l) = get_all_jails l := by
  cases o with
  | done rc out =>
    have hrc : rc ≠ 0 := by simpa [isSkippableRun] using h
    simp [get_all_jails, get_all_jails_loop, hrc]
  | raised e =>
    have he : e = PyExc.fileNotFoundError := by simpa [isSkippableRun] using h
    simp [get_all_jails, get_all_jails_loop, he]

/-- Claim C8: the jail-list operation is fail-soft.  When no command
attempt succeeds — every outcome is a missing binary, a non-zero exit, a
timeout, or any other exception — `get_all_jails` returns the
single-default-jail list `["sshd"]` and never raises; when an attempt
succeeds (after any run of skippable failures) it returns the
comma-separated jail names parsed from the status output; and the service
variant returns the empty list on any invocation failure. -/
theorem jail_listing_fail_soft :
    (∀ outs : List RunOutcome, (∀ o ∈ outs, isSuccessRun o = false) →
      get_all_jails outs = ["sshd"]) ∧
    (∀ (pre : List RunOutcome) (s : String) (rest : List RunOutcome),
      (∀ o ∈ pre, isSkippableRun o = true) →
      get_all_jails (pre ++ RunOutcome.done 0 s :: rest) = parse_jail_status s) ∧
    (∀ e, service_get_jails (RunOutcome.raised e) = []) ∧
    (∀ (rc : Int) (out : String), rc ≠ 0 →
      service_get_jails (RunOutcome.done rc out) = []) := by
  refine ⟨?_, ?_, ?_, ?_⟩
  · intro outs h
    rcases get_all_jails_loop_no_success outs h with h1 | ⟨e, h1⟩ <;>
      simp [get_all_jails, h1]
  · intro pre s rest h
    induction pre with
    | nil => simp [get_all_jails, get_all_jails_loop]
    | cons o p ih =>
      rw [List.cons_append,
        get_all_jails_skip o _ (h _ (List.mem_cons_self _ _))]
      exact ih (fun q hq => h q (List.mem_cons_of_mem _ hq))
  · intro e
    rfl
  · intro rc out h
    simp [service_get_jails, h]

theorem jail_listing_fail_soft_witness :
    get_all_jails [RunOutcome.raised PyExc.timeoutExpired] = ["sshd"] ∧
    get_all_jails [RunOutcome.done 1 "denied", RunOutcome.raised PyExc.fileNotFoundError,
      RunOutcome.done 0 "Status\n`- Jail list:\tsshd, nginx"] = ["sshd", "nginx"] ∧
    service_get_jails (RunOutcome.raised PyExc.timeoutExpired) = [] ∧
    service_get_jails (RunOutcome.done 2 "x") = [] := by
  obtain ⟨h1, h2, h3, h4⟩ := jail_listing_fail_soft
  refine ⟨h1 _ (by decide), ?_, h3 _, h4 2 "x" (by decide)⟩
  have h := h2 [RunOutcome.done 1 "denied", RunOutcome.raised PyExc.fileNotFoundError]
    "Status\n`- Jail list:\tsshd, nginx" [] (by decide)
  exact h.trans (by decide)
